import Mathlib

/-!
Shallow embedding of the core logic of the portfolio-oracle-gpt repository
(stock dashboard): error classification, keyword sentiment analysis,
exchange-rate caching, batch quote fetching, the in-memory watchlist store,
the forecast heuristic, the recommendation ranker and the portfolio
aggregator, together with theorems settling the specification claims.
-/

namespace PortfolioOracle

/-! String helpers: JavaScript `String.prototype.includes` (substring
containment) modelled on character lists, and ASCII case mapping
(`toLowerCase` / `toUpperCase`) modelled by mapping `Char.toLower` /
`Char.toUpper` over the characters. -/

/-- Does `hay` contain `pat` as a contiguous substring (JS `includes`)? -/
def listIncludes (hay pat : List Char) : Bool :=
  match hay with
  | [] => pat.isEmpty
  | _ :: t => pat.isPrefixOf hay || listIncludes t pat

/-- JS `hay.includes(pat)` on strings. -/
def strIncludes (hay pat : String) : Bool :=
  listIncludes hay.toList pat.toList

/-- JS `s.toLowerCase()` (ASCII). -/
def jsToLower (s : String) : String :=
  ⟨s.data.map Char.toLower⟩

/-- JS `s.toUpperCase()` (ASCII). -/
def jsToUpper (s : String) : String :=
  ⟨s.data.map Char.toUpper⟩

/-! Error classifier (`createStockError`, src/client/src/services/stockApi.ts
lines 238-281; identical in src/src/services/stockApi.ts lines 128-171)

A caught JS error is duck-typed: it may or may not carry a `message` string
and a `data` object.  We model `message` as an optional string and the
`data` payload by its list of keys (`Object.keys(error.data || {})` only
inspects the keys), with `none` standing for an absent payload. -/

inductive StockErrorType
  | NETWORK
  | API_LIMIT
  | INVALID_SYMBOL
  | NO_DATA
  | UNKNOWN
deriving DecidableEq, Repr

structure StockError where
  type : StockErrorType
  message : String
  solution : String
  canRetry : Bool
deriving DecidableEq, Repr

structure RawError where
  message : Option String
  dataKeys : Option (List String)
deriving DecidableEq, Repr

/-- JS `error.message?.includes(pat)` coerced to boolean: an absent message
makes the check falsy. -/
def RawError.msgIncludes (e : RawError) (pat : String) : Bool :=
  match e.message with
  | none => false
  | some m => strIncludes m pat

/-- `createStockError(error, context)`: substring-match the raw error's
message against five rules, first match wins. -/
def createStockError (error : RawError) (context : String) : StockError :=
  if error.msgIncludes "Failed to fetch" || error.msgIncludes "NetworkError" then
    { type := .NETWORK
      message := "Unable to connect to stock data service"
      solution := "Check your internet connection and try again"
      canRetry := true }
  else if error.msgIncludes "API call frequency" || error.msgIncludes "rate limit" then
    { type := .API_LIMIT
      message := "Too many requests - API limit reached"
      solution := "Please wait a few minutes before trying again"
      canRetry := true }
  else if error.msgIncludes "not found" || error.msgIncludes "Invalid API call" then
    { type := .INVALID_SYMBOL
      message := "Stock symbol not found"
      solution := "Check the stock symbol or try searching by company name"
      canRetry := false }
  else if error.msgIncludes "no data" || (error.dataKeys.getD []).length == 0 then
    { type := .NO_DATA
      message := "No stock data available"
      solution := "This stock may not be actively traded or may be delisted"
      canRetry := false }
  else
    { type := .UNKNOWN
      message := s!"Unexpected error in {context}"
      solution := "Please try again or contact support if the problem persists"
      canRetry := true }

/-- An error message matches one of the API_LIMIT patterns. -/
def matchesApiLimit (e : RawError) : Bool :=
  e.msgIncludes "API call frequency" || e.msgIncludes "rate limit"

/-- An error message matches one of the INVALID_SYMBOL patterns. -/
def matchesInvalidSymbol (e : RawError) : Bool :=
  e.msgIncludes "not found" || e.msgIncludes "Invalid API call"

/-- An error message matches one of the NETWORK patterns. -/
def matchesNetwork (e : RawError) : Bool :=
  e.msgIncludes "Failed to fetch" || e.msgIncludes "NetworkError"

/-! Keyword sentiment classifier (`analyzeSentiment`,
src/client/src/services/stockApi.ts lines 346-367) -/

inductive Sentiment
  | positive
  | negative
  | neutral
deriving DecidableEq, Repr

def positiveKeywords : List String :=
  ["growth", "profit", "strong", "positive", "increase", "bullish",
   "outperform", "buy", "upgrade", "beat", "exceed"]

def negativeKeywords : List String :=
  ["loss", "decline", "weak", "negative", "decrease", "bearish",
   "underperform", "sell", "downgrade", "miss", "below"]

/-- Number of keywords of `keywords` occurring in `lowerText`
(the JS `forEach`/`includes` loop increments once per matching keyword). -/
def keywordScore (keywords : List String) (lowerText : String) : Nat :=
  (keywords.filter (fun k => strIncludes lowerText k)).length

/-- `analyzeSentiment(text)`: lowercase the text, count matching positive
and negative keywords, compare. -/
def analyzeSentiment (text : String) : Sentiment :=
  let lowerText := jsToLower text
  let positiveScore := keywordScore positiveKeywords lowerText
  let negativeScore := keywordScore negativeKeywords lowerText
  if positiveScore > negativeScore then .positive
  else if negativeScore > positiveScore then .negative
  else .neutral

/-! Exchange-rate cache (`getUsdToEurRate`,
src/client/src/services/stockApi.ts lines 104-131; identical in
src/src/services/stockApi.ts lines 49-76)

The module-level mutable cache `cachedExchangeRate` is modelled by explicit
state passing; `Date.now()` by an integer parameter `now` (milliseconds);
the outcome of the provider `fetch` (network error, non-2xx — both end in
the `catch` via the thrown error — or a parsed EUR rate) by a parameter. -/

structure CacheEntry where
  rate : ℚ
  timestamp : ℤ
deriving DecidableEq, Repr

/-- `CACHE_DURATION`: one hour in milliseconds. -/
def CACHE_DURATION : ℤ := 3600000

/-- Outcome of the provider call when it is made: a parsed EUR rate, or a
failure (network error or non-2xx response, both of which throw). -/
inductive RateFetch
  | ok (eurRate : ℚ)
  | failure
deriving DecidableEq, Repr

/-- Result of one `getUsdToEurRate` call: the returned rate, the cache
state afterwards, and whether the provider was contacted. -/
structure RateResult where
  rate : ℚ
  cache : Option CacheEntry
  calledProvider : Bool
deriving DecidableEq, Repr

/-- The fetch-and-cache path of `getUsdToEurRate` (reached on cache miss
or stale cache): on success store `{rate, now}` and return the rate; on
failure return the fallback constant 0.85 leaving the cache untouched. -/
def rateFetchStep (cache : Option CacheEntry) (now : ℤ) (fetch : RateFetch) :
    RateResult :=
  match fetch with
  | .ok eurRate => { rate := eurRate, cache := some ⟨eurRate, now⟩, calledProvider := true }
  | .failure => { rate := 85 / 100, cache := cache, calledProvider := true }

/-- `getUsdToEurRate()`: return the cached rate when it is younger than
`CACHE_DURATION`, otherwise consult the provider. -/
def getUsdToEurRate (cache : Option CacheEntry) (now : ℤ) (fetch : RateFetch) :
    RateResult :=
  match cache with
  | some entry =>
    if now - entry.timestamp < CACHE_DURATION then
      { rate := entry.rate, cache := some entry, calledProvider := false }
    else
      rateFetchStep (some entry) now fetch
  | none => rateFetchStep none now fetch

/-! Quote data and batch fetching (`StockApiService.getMultipleStocks`,
src/client/src/services/stockApi.ts lines 433-449; same control flow in
src/src/services/stockApi.ts lines 270-286)

The outcome of each per-symbol `getStock` call is a parameter
`fetchOutcome : String → Option StockData` (`none` models the call
throwing).  The inter-call `setTimeout` delay cannot fail and does not
affect the results list. -/

structure StockData where
  symbol : String
  name : String
  price : ℚ
  change : ℚ
  changePercent : ℚ
  volume : Option ℤ
  marketCap : Option String
deriving DecidableEq, Repr

/-- `getMultipleStocks(symbols)`: iterate the symbols in order; a symbol
whose fetch throws is logged and skipped, all others contribute their
quote in order.  Totality of this function models that the loop never
throws for the batch as a whole. -/
def getMultipleStocks (fetchOutcome : String → Option StockData) :
    List String → List StockData
  | [] => []
  | s :: rest =>
    match fetchOutcome s with
    | some stock => stock :: getMultipleStocks fetchOutcome rest
    | none => getMultipleStocks fetchOutcome rest

/-! Portfolio aggregator (`portfolioData`, src/client/src/pages/Index.tsx
lines 130-138): a pure fold over the current quote list with the fixed
placeholder multiplier of 100 shares per symbol. -/

structure PortfolioData where
  totalValue : ℚ
  totalChange : ℚ
  totalChangePercent : ℚ
  stockCount : ℕ
deriving DecidableEq, Repr

/-- The `portfolioData` object computed on every render. -/
def portfolioData (stocks : List StockData) : PortfolioData :=
  { totalValue := stocks.foldl (fun sum stock => sum + stock.price * 100) 0
    totalChange := stocks.foldl (fun sum stock => sum + stock.change * 100) 0
    totalChangePercent :=
      if stocks.length > 0 then
        stocks.foldl (fun sum stock => sum + stock.changePercent) 0 / stocks.length
      else 0
    stockCount := stocks.length }

/-! Watchlist store: the Hono route handlers (`app.post("/api/stocks")`,
`app.delete("/api/stocks/:symbol")`, src/unnamed/part_002 lines 16-52) over
the in-memory `MemStorage` (src/unnamed/part_002 lines 115-170).

The JS `Map<string, Stock>` is modelled as an insertion-ordered association
list with the `Map.set` replace-in-place semantics; `new Date()` timestamps
are integer parameters threaded through the operations. -/

/-- A persisted watchlist row (the `Stock` type of `@shared/schema`). -/
structure Stock where
  id : ℕ
  symbol : String
  name : String
  userId : Option ℕ
  addedAt : ℤ
  isActive : Bool
deriving DecidableEq, Repr

/-- The insertable column subset (`InsertStock`). -/
structure InsertStock where
  symbol : String
  name : String
  userId : Option ℕ
deriving DecidableEq, Repr

/-- State of `MemStorage` (the `users` map is irrelevant to the stock
endpoints and omitted). -/
structure MemState where
  stocks : List (String × Stock)
  currentStockId : ℕ
deriving DecidableEq, Repr

/-- The constructed `MemStorage`: empty map, `currentStockId = 1`. -/
def initialMemState : MemState :=
  { stocks := [], currentStockId := 1 }

/-- JS `Map.get`. -/
def mapGet (m : List (String × Stock)) (k : String) : Option Stock :=
  match m with
  | [] => none
  | (k2, v) :: t => if k2 = k then some v else mapGet t k

/-- JS `Map.set`: replace in place when the key is present (keeping
insertion order), append otherwise. -/
def mapSet (m : List (String × Stock)) (k : String) (v : Stock) :
    List (String × Stock) :=
  match m with
  | [] => [(k, v)]
  | (k2, v2) :: t => if k2 = k then (k, v) :: t else (k2, v2) :: mapSet t k v

/-- `MemStorage.addStock(stock)`: build the new row with the next id,
`isActive: true`, and store it under the uppercased symbol. -/
def memAddStock (st : MemState) (stock : InsertStock) (now : ℤ) :
    Stock × MemState :=
  let newStock : Stock :=
    { id := st.currentStockId
      symbol := stock.symbol
      name := stock.name
      userId := stock.userId
      addedAt := now
      isActive := true }
  (newStock,
   { stocks := mapSet st.stocks (jsToUpper stock.symbol) newStock
     currentStockId := st.currentStockId + 1 })

/-- `MemStorage.removeStock(symbol)`: soft-delete by flipping `isActive`
on the row stored under the uppercased symbol, if any. -/
def memRemoveStock (st : MemState) (symbol : String) : MemState :=
  match mapGet st.stocks (jsToUpper symbol) with
  | none => st
  | some stock =>
    { st with
      stocks := mapSet st.stocks (jsToUpper symbol) { stock with isActive := false } }

/-- `MemStorage.getStock(symbol)`. -/
def memGetStock (st : MemState) (symbol : String) : Option Stock :=
  mapGet st.stocks (jsToUpper symbol)

/-- `MemStorage.getStocks()`: the active rows. -/
def memGetStocks (st : MemState) : List Stock :=
  (st.stocks.map Prod.snd).filter (fun s => s.isActive)

/-- Response of the `POST /api/stocks` handler. -/
inductive AddStockResult
  | badRequest
  | alreadyExists
  | added (stock : Stock)
deriving DecidableEq, Repr

/-- The add branch of the route handler: `storage.addStock({symbol:
symbol.toUpperCase(), name, userId: undefined})`. -/
def apiDoAddStock (st : MemState) (symbol name : String) (now : ℤ) :
    AddStockResult × MemState :=
  let res := memAddStock st { symbol := jsToUpper symbol, name := name, userId := none } now
  (.added res.1, res.2)

/-- `app.post("/api/stocks")`: 400 when symbol or name is missing (falsy),
409 when an active row already exists for the uppercased symbol, otherwise
add a fresh row. -/
def apiAddStock (st : MemState) (symbol name : String) (now : ℤ) :
    AddStockResult × MemState :=
  if symbol.isEmpty || name.isEmpty then (.badRequest, st)
  else
    match memGetStock st symbol with
    | some existing =>
      if existing.isActive then (.alreadyExists, st)
      else apiDoAddStock st symbol name now
    | none => apiDoAddStock st symbol name now

/-- One watchlist API operation (`POST /api/stocks` carries the wall-clock
instant of the insert). -/
inductive WatchOp
  | add (symbol name : String) (now : ℤ)
  | remove (symbol : String)
deriving DecidableEq, Repr

/-- Apply one operation to the store state (the `DELETE` handler just
forwards to `storage.removeStock`). -/
def applyWatchOp (st : MemState) : WatchOp → MemState
  | .add symbol name now => (apiAddStock st symbol name now).2
  | .remove symbol => memRemoveStock st symbol

/-- Run a sequence of watchlist API operations from the fresh store. -/
def runWatchOps (ops : List WatchOp) : MemState :=
  ops.foldl applyWatchOp initialMemState

/-- Store well-formedness: map keys are pairwise distinct, every key is
the uppercased symbol of its row, and every stored id is below the
id counter. -/
def MemState.Good (st : MemState) : Prop :=
  (st.stocks.map Prod.fst).Nodup
    ∧ (∀ p ∈ st.stocks, p.1 = jsToUpper p.2.symbol)
    ∧ (∀ p ∈ st.stocks, p.2.id < st.currentStockId)

/-! Forecast heuristic (`StockApiService.getForecast`,
src/client/src/services/stockApi.ts lines 567-671; the confidence and
trend arithmetic is identical in src/src/services/stockApi.ts lines
364-464)

The Finnhub candle call is modelled by a `CandleFetch` parameter; each
`Math.random()` call site by a named draw.  The generated `reasoning`
rationale strings (presentation text interpolating the same numbers) are
not modelled. -/

inductive Trend
  | up
  | down
  | neutral
deriving DecidableEq, Repr

inductive Period
  | d1
  | w1
  | m1
deriving DecidableEq, Repr

structure ForecastPoint where
  period : Period
  label : String
  prediction : ℚ
  confidence : ℚ
  trend : Trend
deriving DecidableEq, Repr

/-- Outcome of the candle-history request: the fetch throwing (caught by
the `catch` block), a non-2xx response, or a parsed body whose `c` field
is the (possibly absent) close-price array. -/
inductive CandleFetch
  | threw
  | notOk
  | okData (c : Option (List ℚ))
deriving DecidableEq, Repr

/-- The nine `Math.random()` draws of one `getForecast` call, in source
order per horizon: prediction spread, confidence jitter, and (fallback
path only) the per-horizon trend draw. -/
structure ForecastDraws where
  p1 : ℚ
  p2 : ℚ
  p3 : ℚ
  c1 : ℚ
  c2 : ℚ
  c3 : ℚ
  t1 : ℚ
  t2 : ℚ
  t3 : ℚ
deriving DecidableEq, Repr

def ForecastDraws.fields (d : ForecastDraws) : List ℚ :=
  [d.p1, d.p2, d.p3, d.c1, d.c2, d.c3, d.t1, d.t2, d.t3]

/-- Every draw lies in `Math.random()`'s range `[0, 1)`. -/
def ForecastDraws.valid (d : ForecastDraws) : Prop :=
  ∀ x ∈ d.fields, 0 ≤ x ∧ x < 1

/-- JS `l.slice(-n)` for `n ≥ 1`: the last `n` elements (the whole list
when it is shorter). -/
def sliceLastN (l : List ℚ) (n : ℕ) : List ℚ :=
  l.drop (l.length - n)

/-- JS `l.slice(-10, -5)`: the elements with indices in
`[max(0, len-10), max(0, len-5))`. -/
def sliceNegRange (l : List ℚ) : List ℚ :=
  (l.take (l.length - 5)).drop (l.length - 10)

/-- JS `prices.slice(1).map((price, i) => Math.abs(price - prices[i]) /
prices[i])`: absolute relative day-over-day changes.  (Division by zero is
total in `ℚ`, returning 0 where JS would produce `Infinity`/`NaN`; the
volatility value feeds only the prediction field.) -/
def dayChanges : List ℚ → List ℚ
  | [] => []
  | [_] => []
  | a :: b :: t => |b - a| / a :: dayChanges (b :: t)

/-- Rational mean of a list, `sum / length` (0 for the empty list, where
JS would produce `NaN`). -/
def listMean (l : List ℚ) : ℚ :=
  l.sum / l.length

/-- The trend / volatility estimate of `getForecast`: defaults `neutral` /
0.05, replaced by the moving-average comparison and mean absolute change
when the candle response is ok and carries a nonempty close array. -/
def forecastTrendVol (fetchRes : CandleFetch) : Trend × ℚ :=
  match fetchRes with
  | .okData (some c) =>
    if c.length > 0 then
      let prices := sliceLastN c 10
      let recentAvg := (sliceLastN prices 5).sum / 5
      let olderAvg := (sliceNegRange prices).sum / 5
      let trend : Trend :=
        if recentAvg > olderAvg * (102 / 100) then .up
        else if recentAvg < olderAvg * (98 / 100) then .down
        else .neutral
      (trend, listMean (dayChanges prices))
    else (.neutral, 5 / 100)
  | _ => (.neutral, 5 / 100)

/-- `getForecast(symbol, currentPrice)`: three forecast points.  On the
data path the shared trend fixes a base confidence of 60 (neutral) or 75;
on the total-failure path fixed volatility assumptions of 3%/10%/20% and
per-horizon random trends are used. -/
def getForecast (fetchRes : CandleFetch) (currentPrice : ℚ) (d : ForecastDraws) :
    List ForecastPoint :=
  match fetchRes with
  | .threw =>
    [ { period := .d1
        label := "1 Day"
        prediction := currentPrice * (1 + (d.p1 - 1 / 2) * (3 / 100))
        confidence := 70 + d.c1 * 20
        trend := if d.t1 > 1 / 2 then .up else .down }
    , { period := .w1
        label := "1 Week"
        prediction := currentPrice * (1 + (d.p2 - 1 / 2) * (10 / 100))
        confidence := 60 + d.c2 * 25
        trend := if d.t2 > 2 / 5 then .up else .down }
    , { period := .m1
        label := "1 Month"
        prediction := currentPrice * (1 + (d.p3 - 1 / 2) * (20 / 100))
        confidence := 50 + d.c3 * 30
        trend := if d.t3 > 3 / 10 then .up else .down } ]
  | _ =>
    let tv := forecastTrendVol fetchRes
    let baseConfidence : ℚ := if tv.1 = .neutral then 60 else 75
    [ { period := .d1
        label := "1 Day"
        prediction := currentPrice * (1 + (d.p1 - 1 / 2) * tv.2 * (1 / 2))
        confidence := baseConfidence + d.c1 * 15
        trend := tv.1 }
    , { period := .w1
        label := "1 Week"
        prediction := currentPrice * (1 + (d.p2 - 1 / 2) * tv.2 * 2)
        confidence := baseConfidence - 10 + d.c2 * 15
        trend := tv.1 }
    , { period := .m1
        label := "1 Month"
        prediction := currentPrice * (1 + (d.p3 - 1 / 2) * tv.2 * 4)
        confidence := baseConfidence - 20 + d.c3 * 20
        trend := tv.1 } ]

/-! Recommendation ranker (`StockApiService.getRecommendations`,
src/client/src/services/stockApi.ts lines 673-752)

Each candidate's combined quote-and-news fetch (`Promise.all`) is modelled
by `fetch : String → Option (StockData × List Sentiment)` (`none` models
either sub-call throwing, which skips the candidate), and the two
`Math.random()` draws (upside, confidence) by `draws`.  The generated
`reason` string (presentation text) is not modelled. -/

structure Recommendation where
  symbol : String
  name : String
  currentPrice : ℚ
  targetPrice : ℚ
  upside : ℚ
  confidence : ℚ
  newsImpact : Sentiment
deriving DecidableEq, Repr

/-- The hardcoded candidate list. -/
def trendingSymbols : List String :=
  ["NVDA", "TSLA", "AAPL", "MSFT", "GOOGL"]

/-- `getCompanyName(symbol)`: fixed mapping with the symbol itself as
fallback. -/
def getCompanyName (symbol : String) : String :=
  let u := jsToUpper symbol
  if u = "AAPL" then "Apple Inc"
  else if u = "GOOGL" then "Alphabet Google"
  else if u = "MSFT" then "Microsoft Corporation"
  else if u = "TSLA" then "Tesla Inc"
  else if u = "NVDA" then "NVIDIA Corporation"
  else if u = "AMZN" then "Amazon.com Inc"
  else if u = "META" then "Meta Platforms"
  else if u = "NFLX" then "Netflix Inc"
  else symbol

/-- Model of `parseFloat(x.toFixed(digits))`: round to `digits` decimal
places, halves away from zero for the nonnegative values occurring here. -/
def roundTo (digits : ℕ) (x : ℚ) : ℚ :=
  (⌊x * 10 ^ digits + 1 / 2⌋ : ℚ) / 10 ^ digits

/-- The JS filter condition `!maxPrice || stockData.price <= maxPrice`:
an absent `maxPrice` is falsy, and so is a supplied `maxPrice` of 0. -/
def recFilterPasses (maxPrice : Option ℚ) (price : ℚ) : Bool :=
  match maxPrice with
  | none => true
  | some m => decide (m = 0) || decide (price ≤ m)

/-- The recommendation record pushed for one successfully fetched
candidate. -/
def buildRecommendation (symbol : String) (stockData : StockData)
    (news : List Sentiment) (upsideDraw confDraw : ℚ) : Recommendation :=
  let positiveNews := (news.filter (fun s => s = .positive)).length
  let negativeNews := (news.filter (fun s => s = .negative)).length
  let newsScore : ℤ := (positiveNews : ℤ) - (negativeNews : ℤ)
  let upside := 5 + upsideDraw * 15
  let targetPrice := stockData.price * (1 + upside / 100)
  { symbol := stockData.symbol
    name := getCompanyName symbol
    currentPrice := stockData.price
    targetPrice := roundTo 2 targetPrice
    upside := roundTo 1 upside
    confidence := max 50 (70 + (newsScore : ℚ) * 5 + confDraw * 15)
    newsImpact :=
      if newsScore > 0 then .positive
      else if newsScore < 0 then .negative
      else .neutral }

/-- The per-candidate step: a failed fetch skips the candidate, a fetched
candidate is pushed when the price filter passes. -/
def recStep (maxPrice : Option ℚ)
    (fetch : String → Option (StockData × List Sentiment))
    (draws : String → ℚ × ℚ) (symbol : String) : Option Recommendation :=
  match fetch symbol with
  | none => none
  | some (stockData, news) =>
    if recFilterPasses maxPrice stockData.price then
      some (buildRecommendation symbol stockData news (draws symbol).1 (draws symbol).2)
    else none

/-- The candidate loop of `getRecommendations`, written as the source's
`for`/`try` loop. -/
def recommendationsLoop (maxPrice : Option ℚ)
    (fetch : String → Option (StockData × List Sentiment))
    (draws : String → ℚ × ℚ) : List String → List Recommendation
  | [] => []
  | symbol :: rest =>
    match fetch symbol with
    | none => recommendationsLoop maxPrice fetch draws rest
    | some (stockData, news) =>
      if recFilterPasses maxPrice stockData.price then
        buildRecommendation symbol stockData news (draws symbol).1 (draws symbol).2
          :: recommendationsLoop maxPrice fetch draws rest
      else recommendationsLoop maxPrice fetch draws rest

/-- `getRecommendations(maxPrice)`: process the first three trending
symbols. -/
def getRecommendations (maxPrice : Option ℚ)
    (fetch : String → Option (StockData × List Sentiment))
    (draws : String → ℚ × ℚ) : List Recommendation :=
  recommendationsLoop maxPrice fetch draws (trendingSymbols.take 3)

/-! Concrete instances used by the example parts of the claims. -/

/-- A concrete AAPL quote for the batch-fetch example. -/
def exampleQuoteAAPL : StockData :=
  { symbol := "AAPL", name := "Apple Inc", price := 150, change := 1
    changePercent := 2 / 3, volume := none, marketCap := none }

/-- A concrete MSFT quote for the batch-fetch example. -/
def exampleQuoteMSFT : StockData :=
  { symbol := "MSFT", name := "Microsoft Corporation", price := 300, change := -2
    changePercent := -(2 / 3), volume := none, marketCap := none }

/-- A per-symbol outcome assignment where AAPL and MSFT succeed and every
other symbol (in particular ZZZZINVALID) fails. -/
def exampleBatchFetch : String → Option StockData :=
  fun s =>
    if s = "AAPL" then some exampleQuoteAAPL
    else if s = "MSFT" then some exampleQuoteMSFT
    else none

/-- A candidate-fetch assignment where every candidate succeeds with price
10 and no news. -/
def constPriceFetch : String → Option (StockData × List Sentiment) :=
  fun s =>
    some ({ symbol := s, name := s, price := 10, change := 0, changePercent := 0
            volume := none, marketCap := none }, [])

/-- All-zero random draws for the ranker. -/
def zeroRecDraws : String → ℚ × ℚ :=
  fun _ => (0, 0)

/-- All-zero random draws for the forecast heuristic. -/
def zeroForecastDraws : ForecastDraws :=
  ⟨0, 0, 0, 0, 0, 0, 0, 0, 0⟩

/-! Theorems.  Helper lemmas first, then one theorem (plus counterexample
and witness where applicable) per claim. -/

/-- The type field of a classified error, as a four-way decision tree. -/
theorem createStockError_type_eq (e : RawError) (ctx : String) :
    (createStockError e ctx).type =
      if matchesNetwork e then .NETWORK
      else if matchesApiLimit e then .API_LIMIT
      else if matchesInvalidSymbol e then .INVALID_SYMBOL
      else if e.msgIncludes "no data" || (e.dataKeys.getD []).length == 0 then .NO_DATA
      else .UNKNOWN := by
  simp only [createStockError, matchesNetwork, matchesApiLimit, matchesInvalidSymbol]
  split_ifs <;> rfl

/-- Claim C1, counterexample: a raw error whose message contains an
API_LIMIT pattern ("rate limit") and an INVALID_SYMBOL pattern
("not found") — and also a NETWORK pattern — is classified NETWORK, not
API_LIMIT as the claim's universal sentence demands. -/
theorem errorClassifier_precedence_refuted :
    matchesApiLimit ⟨some "NetworkError: rate limit hit, symbol not found", none⟩ = true
    ∧ matchesInvalidSymbol ⟨some "NetworkError: rate limit hit, symbol not found", none⟩ = true
    ∧ (createStockError ⟨some "NetworkError: rate limit hit, symbol not found", none⟩
        "fetching stock data").type = .NETWORK
    ∧ StockErrorType.NETWORK ≠ StockErrorType.API_LIMIT := by
  exact ⟨by decide, by decide, by decide, by decide⟩

/-- Claim C1, amended: the five rules are checked in exact precedence
order with first match winning; every raw error whose message contains
both an API_LIMIT pattern and an INVALID_SYMBOL pattern and none of the
NETWORK patterns is classified API_LIMIT with canRetry; in particular
"rate limit exceeded, symbol not found" yields API_LIMIT for every
context; and NETWORK patterns are checked before API_LIMIT patterns. -/
theorem errorClassifier_precedence_amended :
    (∀ (e : RawError) (ctx : String),
        matchesNetwork e = false → matchesApiLimit e = true →
        matchesInvalidSymbol e = true →
          (createStockError e ctx).type = .API_LIMIT
          ∧ (createStockError e ctx).canRetry = true)
    ∧ (∀ ctx : String,
        (createStockError ⟨some "rate limit exceeded, symbol not found", none⟩ ctx).type
          = .API_LIMIT)
    ∧ (∀ (e : RawError) (ctx : String),
        matchesNetwork e = true → (createStockError e ctx).type = .NETWORK) := by
  refine ⟨?_, ?_, ?_⟩
  · intro e ctx h1 h2 _h3
    simp only [matchesNetwork] at h1
    simp only [matchesApiLimit] at h2
    constructor <;> simp [createStockError, h1, h2]
  · intro ctx
    rfl
  · intro e ctx h1
    simp only [matchesNetwork] at h1
    simp [createStockError, h1]

/-- Witness for the amended claim C1 at a concrete input. -/
theorem errorClassifier_precedence_amended_witness :
    (matchesNetwork ⟨some "rate limit exceeded, symbol not found", none⟩ = false
      ∧ matchesApiLimit ⟨some "rate limit exceeded, symbol not found", none⟩ = true
      ∧ matchesInvalidSymbol ⟨some "rate limit exceeded, symbol not found", none⟩ = true)
    ∧ ((createStockError ⟨some "rate limit exceeded, symbol not found", none⟩
          "fetching stock data").type = .API_LIMIT
        ∧ (createStockError ⟨some "rate limit exceeded, symbol not found", none⟩
            "fetching stock data").canRetry = true) :=
  ⟨⟨by decide, by decide, by decide⟩,
   errorClassifier_precedence_amended.1 ⟨some "rate limit exceeded, symbol not found", none⟩
     "fetching stock data" (by decide) (by decide) (by decide)⟩

/-- Claim C2, counterexample: a raw error whose message ("boom") matches
none of the seven rule 1-4 substrings and which carries no data payload at
all is classified NO_DATA, not UNKNOWN as the claim demands: the code's
`Object.keys(error.data || {})` treats a missing payload as an empty
mapping. -/
theorem errorClassifier_unknown_refuted :
    (["Failed to fetch", "NetworkError", "API call frequency", "rate limit",
      "not found", "Invalid API call", "no data"].all
        (fun pat => !(RawError.msgIncludes ⟨some "boom", none⟩ pat))) = true
    ∧ RawError.dataKeys ⟨some "boom", none⟩ = none
    ∧ (createStockError ⟨some "boom", none⟩ "loading quote").type = .NO_DATA
    ∧ StockErrorType.NO_DATA ≠ StockErrorType.UNKNOWN := by
  exact ⟨by decide, by decide, by decide, by decide⟩

/-- Claim C2, amended: an error whose message matches none of the rule 1-4
substrings and whose data payload is present and non-empty is classified
UNKNOWN, retryable, with the context interpolated into the message; and
NO_DATA is returned only when the message contains "no data" or the data
payload (a missing payload counting as an empty mapping) has no keys. -/
theorem errorClassifier_unknown_amended :
    (∀ (e : RawError) (ctx : String),
        matchesNetwork e = false → matchesApiLimit e = false →
        matchesInvalidSymbol e = false → e.msgIncludes "no data" = false →
        (e.dataKeys.getD []).length ≠ 0 →
          createStockError e ctx =
            { type := .UNKNOWN
              message := s!"Unexpected error in {ctx}"
              solution := "Please try again or contact support if the problem persists"
              canRetry := true })
    ∧ (∀ (e : RawError) (ctx : String),
        (createStockError e ctx).type = .NO_DATA →
          e.msgIncludes "no data" = true ∨ (e.dataKeys.getD []).length = 0) := by
  constructor
  · intro e ctx h1 h2 h3 h4 h5
    simp only [matchesNetwork] at h1
    simp only [matchesApiLimit] at h2
    simp only [matchesInvalidSymbol] at h3
    simp [createStockError, h1, h2, h3, h4, h5]
  · intro e ctx h
    rw [createStockError_type_eq] at h
    by_cases h1 : matchesNetwork e = true
    · simp [h1] at h
    · by_cases h2 : matchesApiLimit e = true
      · simp [h1, h2] at h
      · by_cases h3 : matchesInvalidSymbol e = true
        · simp [h1, h2, h3] at h
        · by_cases h4 : (e.msgIncludes "no data" || (e.dataKeys.getD []).length == 0) = true
          · rcases Bool.or_eq_true_iff.mp h4 with h5 | h5
            · exact Or.inl h5
            · exact Or.inr (by simpa using h5)
          · simp [h1, h2, h3, h4] at h

/-- Witness for the amended claim C2 at a concrete input. -/
theorem errorClassifier_unknown_amended_witness :
    (matchesNetwork ⟨some "boom", some ["payload"]⟩ = false
      ∧ matchesApiLimit ⟨some "boom", some ["payload"]⟩ = false
      ∧ matchesInvalidSymbol ⟨some "boom", some ["payload"]⟩ = false
      ∧ RawError.msgIncludes ⟨some "boom", some ["payload"]⟩ "no data" = false
      ∧ ((RawError.dataKeys ⟨some "boom", some ["payload"]⟩).getD []).length ≠ 0)
    ∧ createStockError ⟨some "boom", some ["payload"]⟩ "loading quote" =
        { type := .UNKNOWN
          message := "Unexpected error in loading quote"
          solution := "Please try again or contact support if the problem persists"
          canRetry := true } :=
  ⟨⟨by decide, by decide, by decide, by decide, by decide⟩,
   errorClassifier_unknown_amended.1 ⟨some "boom", some ["payload"]⟩ "loading quote"
     (by decide) (by decide) (by decide) (by decide) (by decide)⟩

/-- Claim C3: for every text input the keyword sentiment classifier
returns exactly one of positive/negative/neutral, computed by comparing
the number of positive and negative keywords found in the lowercased
input (case-insensitive substring matching), and the three example inputs
classify as the claim states.  Determinism and totality are inherent: the
embedding is a pure total function of the text. -/
theorem sentimentClassifier_total_keyword_counting :
    (∀ text : String,
        (analyzeSentiment text = .positive ∨ analyzeSentiment text = .negative
          ∨ analyzeSentiment text = .neutral)
        ∧ analyzeSentiment text =
            (if keywordScore positiveKeywords (jsToLower text) >
                keywordScore negativeKeywords (jsToLower text) then .positive
             else if keywordScore negativeKeywords (jsToLower text) >
                keywordScore positiveKeywords (jsToLower text) then .negative
             else .neutral))
    ∧ analyzeSentiment "Strong GROWTH and profit" = .positive
    ∧ analyzeSentiment "steep decline, bearish outlook" = .negative
    ∧ analyzeSentiment "quarterly report released" = .neutral := by
  refine ⟨fun text => ⟨?_, rfl⟩, by decide, by decide, by decide⟩
  cases h : analyzeSentiment text with
  | positive => exact Or.inl rfl
  | negative => exact Or.inr (Or.inl rfl)
  | neutral => exact Or.inr (Or.inr rfl)

/-- Claim C4: a cache miss (no entry, or any stale entry) followed by a
provider failure returns the fallback 0.85 and leaves the cache exactly as
it was; a cache entry younger than 3,600,000 ms is returned as-is without
contacting the provider, whatever the provider would have answered. -/
theorem exchangeRate_fallback_and_cache_hit :
    (∀ now : ℤ,
        getUsdToEurRate none now .failure
          = { rate := 85 / 100, cache := none, calledProvider := true })
    ∧ (∀ (entry : CacheEntry) (now : ℤ), ¬(now - entry.timestamp < CACHE_DURATION) →
        getUsdToEurRate (some entry) now .failure
          = { rate := 85 / 100, cache := some entry, calledProvider := true })
    ∧ (∀ (entry : CacheEntry) (now : ℤ) (fetch : RateFetch),
        now - entry.timestamp < CACHE_DURATION →
        getUsdToEurRate (some entry) now fetch
          = { rate := entry.rate, cache := some entry, calledProvider := false }) := by
  refine ⟨fun now => rfl, ?_, ?_⟩
  · intro entry now h
    simp [getUsdToEurRate, h, rateFetchStep]
  · intro entry now fetch h
    simp [getUsdToEurRate, h]

/-- Witness for claim C4 at concrete inputs: a stale entry with a failing
provider, and a fresh entry with a failing provider. -/
theorem exchangeRate_fallback_and_cache_hit_witness :
    (¬((3600000 : ℤ) - 0 < CACHE_DURATION)
      ∧ getUsdToEurRate (some ⟨9 / 10, 0⟩) 3600000 .failure
          = { rate := 85 / 100, cache := some ⟨9 / 10, 0⟩, calledProvider := true })
    ∧ ((3599999 : ℤ) - 0 < CACHE_DURATION
      ∧ getUsdToEurRate (some ⟨9 / 10, 0⟩) 3599999 .failure
          = { rate := 9 / 10, cache := some ⟨9 / 10, 0⟩, calledProvider := false }) :=
  ⟨⟨by decide, exchangeRate_fallback_and_cache_hit.2.1 ⟨9 / 10, 0⟩ 3600000 (by decide)⟩,
   ⟨by decide, exchangeRate_fallback_and_cache_hit.2.2 ⟨9 / 10, 0⟩ 3599999 .failure (by decide)⟩⟩

/-- Claim C5: for every symbol list and every assignment of per-symbol
outcomes, the batch fetch returns exactly the successful quotes in input
order (`filterMap`), skipping each failing symbol without aborting the
rest — and on `["AAPL", "ZZZZINVALID", "MSFT"]` with an assignment where
only the invalid symbol fails it returns the AAPL and MSFT quotes.
Totality of `getMultipleStocks` models that the batch never throws. -/
theorem getMultipleStocks_partial_batch :
    (∀ (fetchOutcome : String → Option StockData) (symbols : List String),
        getMultipleStocks fetchOutcome symbols = symbols.filterMap fetchOutcome)
    ∧ getMultipleStocks exampleBatchFetch ["AAPL", "ZZZZINVALID", "MSFT"]
        = [exampleQuoteAAPL, exampleQuoteMSFT] := by
  constructor
  · intro fetchOutcome symbols
    induction symbols with
    | nil => rfl
    | cons s rest ih =>
      cases h : fetchOutcome s <;> simp [getMultipleStocks, List.filterMap_cons, h, ih]
  · rfl

/-- Claim C9: the portfolio aggregator is the stated pure fold with the
fixed 100-share multiplier, and the two-quote example yields
totalValue 3000, totalChange -100, totalChangePercent 2.5, stockCount 2. -/
theorem portfolioAggregator_totals :
    (∀ stocks : List StockData,
        portfolioData stocks =
          { totalValue := (stocks.map (fun s => s.price * 100)).sum
            totalChange := (stocks.map (fun s => s.change * 100)).sum
            totalChangePercent :=
              if stocks.length > 0 then
                (stocks.map (fun s => s.changePercent)).sum / stocks.length
              else 0
            stockCount := stocks.length })
    ∧ portfolioData
        [ { symbol := "X", name := "X", price := 10, change := 1
            changePercent := 10, volume := none, marketCap := none }
        , { symbol := "Y", name := "Y", price := 20, change := -2
            changePercent := -5, volume := none, marketCap := none } ]
        = { totalValue := 3000, totalChange := -100
            totalChangePercent := 5 / 2, stockCount := 2 } := by
  constructor
  · intro stocks
    have key : ∀ (f : StockData → ℚ) (l : List StockData) (init : ℚ),
        l.foldl (fun sum stock => sum + f stock) init = init + (l.map f).sum := by
      intro f l
      induction l with
      | nil => simp
      | cons a t ih =>
        intro init
        simp only [List.foldl_cons, List.map_cons, List.sum_cons, ih]
        ring
    simp only [portfolioData, key, zero_add]
  · simp only [portfolioData, List.foldl_cons, List.foldl_nil, List.length_cons,
      List.length_nil, PortfolioData.mk.injEq]
    norm_num

/-! Association-list lemmas for the JS `Map` model. -/

theorem mapGet_mapSet_self (m : List (String × Stock)) (k : String) (v : Stock) :
    mapGet (mapSet m k v) k = some v := by
  induction m with
  | nil => simp [mapSet, mapGet]
  | cons p t ih =>
    obtain ⟨k2, v2⟩ := p
    by_cases h : k2 = k <;> simp [mapSet, mapGet, h, ih]

theorem mem_mapSet (m : List (String × Stock)) (k : String) (v : Stock)
    (p : String × Stock) : p ∈ mapSet m k v → p ∈ m ∨ p = (k, v) := by
  induction m with
  | nil => simp [mapSet]
  | cons q t ih =>
    obtain ⟨k2, v2⟩ := q
    by_cases h : k2 = k
    · simp only [mapSet, if_pos h, List.mem_cons]
      rintro (rfl | hp)
      · exact Or.inr rfl
      · exact Or.inl (Or.inr hp)
    · simp only [mapSet, if_neg h, List.mem_cons]
      rintro (rfl | hp)
      · exact Or.inl (Or.inl rfl)
      · rcases ih hp with h2 | h2
        · exact Or.inl (Or.inr h2)
        · exact Or.inr h2

theorem mem_keys_mapSet (m : List (String × Stock)) (k : String) (v : Stock)
    (a : String) : a ∈ (mapSet m k v).map Prod.fst → a ∈ m.map Prod.fst ∨ a = k := by
  intro ha
  rcases List.mem_map.mp ha with ⟨p, hp, rfl⟩
  rcases mem_mapSet m k v p hp with h | h
  · exact Or.inl (List.mem_map_of_mem _ h)
  · subst h
    exact Or.inr rfl

theorem nodup_keys_mapSet (m : List (String × Stock)) (k : String) (v : Stock)
    (h : (m.map Prod.fst).Nodup) : ((mapSet m k v).map Prod.fst).Nodup := by
  induction m with
  | nil => simp [mapSet]
  | cons q t ih =>
    obtain ⟨k2, v2⟩ := q
    simp only [List.map_cons, List.nodup_cons] at h
    by_cases hk : k2 = k
    · subst hk
      simpa [mapSet, List.nodup_cons] using h
    · simp only [mapSet, if_neg hk, List.map_cons, List.nodup_cons]
      refine ⟨fun hc => ?_, ih h.2⟩
      rcases mem_keys_mapSet t k v k2 hc with h2 | h2
      · exact h.1 h2
      · exact hk h2

theorem mapGet_mem (m : List (String × Stock)) (k : String) (v : Stock)
    (h : mapGet m k = some v) : (k, v) ∈ m := by
  induction m with
  | nil => simp [mapGet] at h
  | cons q t ih =>
    obtain ⟨k2, v2⟩ := q
    by_cases hk : k2 = k
    · subst hk
      have hv : v2 = v := by simpa [mapGet] using h
      subst hv
      exact List.mem_cons_self _ _
    · simp only [mapGet, if_neg hk] at h
      exact List.mem_cons_of_mem _ (ih h)

theorem keys_nodup_mem_unique (m : List (String × Stock))
    (h : (m.map Prod.fst).Nodup) (k : String) (v1 v2 : Stock) :
    (k, v1) ∈ m → (k, v2) ∈ m → v1 = v2 := by
  induction m with
  | nil => simp
  | cons q t ih =>
    obtain ⟨k2, w⟩ := q
    simp only [List.map_cons, List.nodup_cons] at h
    intro h1 h2
    rcases List.mem_cons.mp h1 with e1 | e1 <;> rcases List.mem_cons.mp h2 with e2 | e2
    · rw [Prod.mk.injEq] at e1 e2
      rw [e1.2, e2.2]
    · exfalso
      rw [Prod.mk.injEq] at e1
      exact h.1 (e1.1 ▸ List.mem_map_of_mem Prod.fst e2)
    · exfalso
      rw [Prod.mk.injEq] at e2
      exact h.1 (e2.1 ▸ List.mem_map_of_mem Prod.fst e1)
    · exact ih h.2 e1 e2

theorem mem_mapSet_same_key (m : List (String × Stock)) (k : String) (v x : Stock)
    (hnd : (m.map Prod.fst).Nodup) (hx : (k, x) ∈ mapSet m k v) : x = v := by
  have h2 := nodup_keys_mapSet m k v hnd
  have h3 : (k, v) ∈ mapSet m k v := mapGet_mem _ _ _ (mapGet_mapSet_self m k v)
  exact keys_nodup_mem_unique _ h2 k x v hx h3

theorem length_mapSet_of_mem (m : List (String × Stock)) (k : String) (v : Stock)
    (h : k ∈ m.map Prod.fst) : (mapSet m k v).length = m.length := by
  induction m with
  | nil => simp at h
  | cons q t ih =>
    obtain ⟨k2, v2⟩ := q
    by_cases hk : k2 = k
    · simp [mapSet, hk]
    · simp only [List.map_cons, List.mem_cons] at h
      rcases h with h | h
      · exact absurd h.symm hk
      · simp [mapSet, hk, ih h]

theorem mapGet_key_mem (m : List (String × Stock)) (k : String) (v : Stock)
    (h : mapGet m k = some v) : k ∈ m.map Prod.fst :=
  List.mem_map_of_mem Prod.fst (mapGet_mem m k v h)

/-! Preservation of store well-formedness. -/

theorem good_memAddStock (st : MemState) (stock : InsertStock) (now : ℤ)
    (h : st.Good) : ((memAddStock st stock now).2).Good := by
  obtain ⟨h1, h2, h3⟩ := h
  refine ⟨nodup_keys_mapSet _ _ _ h1, ?_, ?_⟩
  · intro p hp
    rcases mem_mapSet _ _ _ p hp with hm | hm
    · exact h2 p hm
    · subst hm
      rfl
  · intro p hp
    rcases mem_mapSet _ _ _ p hp with hm | hm
    · exact Nat.lt_succ_of_lt (h3 p hm)
    · subst hm
      exact Nat.lt_succ_self _

theorem good_memRemoveStock (st : MemState) (symbol : String)
    (h : st.Good) : (memRemoveStock st symbol).Good := by
  obtain ⟨h1, h2, h3⟩ := h
  unfold memRemoveStock
  cases hg : mapGet st.stocks (jsToUpper symbol) with
  | none => exact ⟨h1, h2, h3⟩
  | some stock =>
    have hmem := mapGet_mem _ _ _ hg
    have hkey : jsToUpper symbol = jsToUpper stock.symbol := h2 _ hmem
    refine ⟨nodup_keys_mapSet _ _ _ h1, ?_, ?_⟩
    · intro p hp
      rcases mem_mapSet _ _ _ p hp with hm | hm
      · exact h2 p hm
      · subst hm
        exact hkey
    · intro p hp
      rcases mem_mapSet _ _ _ p hp with hm | hm
      · exact h3 p hm
      · subst hm
        simpa using h3 _ hmem

theorem good_apiAddStock (st : MemState) (symbol name : String) (now : ℤ)
    (h : st.Good) : ((apiAddStock st symbol name now).2).Good := by
  unfold apiAddStock apiDoAddStock
  by_cases hb : (symbol.isEmpty || name.isEmpty) = true
  · simpa [hb] using h
  · simp only [hb, Bool.false_eq_true, if_false]
    cases hg : memGetStock st symbol with
    | none => exact good_memAddStock st _ now h
    | some existing =>
      by_cases ha : existing.isActive = true
      · simpa [ha] using h
      · simpa [ha] using good_memAddStock st _ now h

theorem good_applyWatchOp (st : MemState) (op : WatchOp)
    (h : st.Good) : (applyWatchOp st op).Good := by
  cases op with
  | add symbol name now => exact good_apiAddStock st symbol name now h
  | remove symbol => exact good_memRemoveStock st symbol h

theorem good_initialMemState : initialMemState.Good := by
  refine ⟨by simp [initialMemState], ?_, ?_⟩ <;> simp [initialMemState]

theorem good_foldl (ops : List WatchOp) :
    ∀ st : MemState, st.Good → (ops.foldl applyWatchOp st).Good := by
  induction ops with
  | nil => exact fun st h => h
  | cons op rest ih =>
    intro st h
    exact ih _ (good_applyWatchOp st op h)

theorem good_runWatchOps (ops : List WatchOp) : (runWatchOps ops).Good :=
  good_foldl ops initialMemState good_initialMemState

/-- Claim C6: along every sequence of add/remove operations through the
watchlist API, at most one active entry exists per case-insensitive
symbol; an add against an existing active entry for the same uppercased
symbol is rejected with ALREADY_EXISTS (HTTP 409) leaving the store
unchanged; and the concrete scenario — add "aapl", rejected re-add of
"AAPL", remove, list exclusion, successful fresh re-add — behaves as
stated. -/
theorem watchlist_active_uniqueness :
    (∀ (ops : List WatchOp) (p q : String × Stock),
        p ∈ (runWatchOps ops).stocks → q ∈ (runWatchOps ops).stocks →
        p.2.isActive = true → q.2.isActive = true →
        jsToUpper p.2.symbol = jsToUpper q.2.symbol → p = q)
    ∧ (∀ (st : MemState) (symbol name : String) (now : ℤ) (e : Stock),
        symbol.isEmpty = false → name.isEmpty = false →
        memGetStock st symbol = some e → e.isActive = true →
        apiAddStock st symbol name now = (.alreadyExists, st))
    ∧ (apiAddStock (runWatchOps [.add "aapl" "Apple" 100]) "AAPL" "Apple" 200).1
        = .alreadyExists
    ∧ memGetStocks (memRemoveStock (runWatchOps [.add "aapl" "Apple" 100]) "AAPL") = []
    ∧ (apiAddStock (runWatchOps [.add "aapl" "Apple" 100, .remove "AAPL"]) "AAPL" "Apple" 300).1
        = .added { id := 2, symbol := "AAPL", name := "Apple", userId := none
                   addedAt := 300, isActive := true } := by
  refine ⟨?_, ?_, by decide, by decide, by decide⟩
  · intro ops p q hp hq _hpa _hqa hsym
    obtain ⟨h1, h2, _h3⟩ := good_runWatchOps ops
    obtain ⟨pk, pv⟩ := p
    obtain ⟨qk, qv⟩ := q
    have hkp : pk = jsToUpper pv.symbol := h2 _ hp
    have hkq : qk = jsToUpper qv.symbol := h2 _ hq
    have hkk : pk = qk := by rw [hkp, hkq]; exact hsym
    subst hkk
    have hv : pv = qv := keys_nodup_mem_unique _ h1 pk pv qv hp hq
    rw [hv]
  · intro st symbol name now e hs hn hget hact
    unfold apiAddStock
    simp [hs, hn, hget, hact]

/-- Witness for claim C6 at concrete inputs: the uniqueness part applied
to the single stored entry after one add, and the rejection part applied
to the store holding an active AAPL entry. -/
theorem watchlist_active_uniqueness_witness :
    ((("AAPL" : String),
        ({ id := 1, symbol := "AAPL", name := "Apple", userId := none
           addedAt := 100, isActive := true } : Stock))
          ∈ (runWatchOps [.add "aapl" "Apple" 100]).stocks
      ∧ ("AAPL" : String).isEmpty = false
      ∧ ("Apple" : String).isEmpty = false
      ∧ memGetStock (runWatchOps [.add "aapl" "Apple" 100]) "AAPL"
          = some { id := 1, symbol := "AAPL", name := "Apple", userId := none
                   addedAt := 100, isActive := true })
    ∧ apiAddStock (runWatchOps [.add "aapl" "Apple" 100]) "AAPL" "Apple" 200
        = (.alreadyExists, runWatchOps [.add "aapl" "Apple" 100]) :=
  ⟨⟨by decide, by decide, by decide, by decide⟩,
   watchlist_active_uniqueness.2.1 (runWatchOps [.add "aapl" "Apple" 100]) "AAPL" "Apple" 200
     { id := 1, symbol := "AAPL", name := "Apple", userId := none
       addedAt := 100, isActive := true }
     (by decide) (by decide) (by decide) (by decide)⟩

/-- Claim C10: every state reachable through the watchlist API is
well-formed (keys pairwise distinct and each equal to the uppercased
symbol of its row, so the map holds at most one record per
case-insensitive symbol); `MemStorage.addStock` preserves well-formedness;
and when a record — active or soft-deleted — already sits under the
uppercased symbol, `addStock` overwrites it in place: the map size is
unchanged, the key now holds the new row, and the old record is gone. -/
theorem memStorage_overwrite_in_place :
    (∀ ops : List WatchOp, (runWatchOps ops).Good)
    ∧ (∀ (st : MemState) (stock : InsertStock) (now : ℤ),
        st.Good → ((memAddStock st stock now).2).Good)
    ∧ (∀ (st : MemState) (stock : InsertStock) (now : ℤ) (old : Stock),
        st.Good → mapGet st.stocks (jsToUpper stock.symbol) = some old →
          ((memAddStock st stock now).2).stocks.length = st.stocks.length
          ∧ mapGet ((memAddStock st stock now).2).stocks (jsToUpper stock.symbol)
              = some (memAddStock st stock now).1
          ∧ (jsToUpper stock.symbol, old) ∉ ((memAddStock st stock now).2).stocks) := by
  refine ⟨good_runWatchOps, good_memAddStock, ?_⟩
  intro st stock now old hg hget
  obtain ⟨h1, _h2, h3⟩ := hg
  have hre : ((memAddStock st stock now).2).stocks
      = mapSet st.stocks (jsToUpper stock.symbol) (memAddStock st stock now).1 := rfl
  refine ⟨?_, ?_, ?_⟩
  · rw [hre]
    exact length_mapSet_of_mem st.stocks _ _ (mapGet_key_mem _ _ _ hget)
  · rw [hre]
    exact mapGet_mapSet_self st.stocks _ _
  · intro hmem
    rw [hre] at hmem
    have hov : old = (memAddStock st stock now).1 :=
      mem_mapSet_same_key st.stocks _ _ old h1 hmem
    have hid : old.id < st.currentStockId := h3 _ (mapGet_mem _ _ _ hget)
    have hid2 : (memAddStock st stock now).1.id = st.currentStockId := rfl
    rw [hov, hid2] at hid
    exact lt_irrefl _ hid

/-- Witness for claim C10 at a concrete input: re-adding AAPL over the
soft-deleted row overwrites it in place. -/
theorem memStorage_overwrite_in_place_witness :
    ((runWatchOps [.add "aapl" "Apple" 100, .remove "AAPL"]).Good
      ∧ mapGet (runWatchOps [.add "aapl" "Apple" 100, .remove "AAPL"]).stocks
          (jsToUpper ("AAPL" : String))
          = some { id := 1, symbol := "AAPL", name := "Apple", userId := none
                   addedAt := 100, isActive := false })
    ∧ (((memAddStock (runWatchOps [.add "aapl" "Apple" 100, .remove "AAPL"])
            ⟨"AAPL", "Apple", none⟩ 300).2).stocks.length
          = (runWatchOps [.add "aapl" "Apple" 100, .remove "AAPL"]).stocks.length
        ∧ mapGet ((memAddStock (runWatchOps [.add "aapl" "Apple" 100, .remove "AAPL"])
              ⟨"AAPL", "Apple", none⟩ 300).2).stocks (jsToUpper ("AAPL" : String))
            = some (memAddStock (runWatchOps [.add "aapl" "Apple" 100, .remove "AAPL"])
                ⟨"AAPL", "Apple", none⟩ 300).1
        ∧ (jsToUpper ("AAPL" : String),
            ({ id := 1, symbol := "AAPL", name := "Apple", userId := none
               addedAt := 100, isActive := false } : Stock))
              ∉ ((memAddStock (runWatchOps [.add "aapl" "Apple" 100, .remove "AAPL"])
                  ⟨"AAPL", "Apple", none⟩ 300).2).stocks) :=
  ⟨⟨⟨by decide, by decide, by decide⟩, by decide⟩,
   memStorage_overwrite_in_place.2.2 (runWatchOps [.add "aapl" "Apple" 100, .remove "AAPL"])
     ⟨"AAPL", "Apple", none⟩ 300
     { id := 1, symbol := "AAPL", name := "Apple", userId := none
       addedAt := 100, isActive := false }
     ⟨by decide, by decide, by decide⟩ (by decide)⟩

/-- Claim C7: every forecast point has its confidence in [0, 100], on the
data-driven path (base 60 or 75, horizon offsets 0/−10/−20, random spreads
of 15/15/20) and on the total-failure fallback path (bases 70/60/50,
spreads 20/25/30), for every value of the random draws in [0, 1) and every
computed trend and volatility. -/
theorem forecast_confidence_in_range :
    ∀ (fetchRes : CandleFetch) (currentPrice : ℚ) (d : ForecastDraws),
      d.valid →
      ∀ fp ∈ getForecast fetchRes currentPrice d,
        0 ≤ fp.confidence ∧ fp.confidence ≤ 100 := by
  intro fetchRes currentPrice d hv fp hfp
  obtain ⟨hc1a, hc1b⟩ := hv d.c1 (by simp [ForecastDraws.fields])
  obtain ⟨hc2a, hc2b⟩ := hv d.c2 (by simp [ForecastDraws.fields])
  obtain ⟨hc3a, hc3b⟩ := hv d.c3 (by simp [ForecastDraws.fields])
  cases fetchRes with
  | threw =>
    simp only [getForecast, List.mem_cons, List.not_mem_nil, or_false] at hfp
    rcases hfp with rfl | rfl | rfl <;> constructor <;> simp <;> linarith
  | notOk =>
    have hbase :
        (if (forecastTrendVol CandleFetch.notOk).1 = Trend.neutral then (60 : ℚ) else 75) = 60
        ∨ (if (forecastTrendVol CandleFetch.notOk).1 = Trend.neutral then (60 : ℚ) else 75) = 75 := by
      by_cases hb : (forecastTrendVol CandleFetch.notOk).1 = Trend.neutral <;> simp [hb]
    simp only [getForecast, List.mem_cons, List.not_mem_nil, or_false] at hfp
    rcases hfp with rfl | rfl | rfl <;> rcases hbase with hb | hb <;>
      constructor <;> simp [hb] <;> linarith
  | okData c =>
    have hbase :
        (if (forecastTrendVol (CandleFetch.okData c)).1 = Trend.neutral then (60 : ℚ) else 75) = 60
        ∨ (if (forecastTrendVol (CandleFetch.okData c)).1 = Trend.neutral then (60 : ℚ) else 75)
            = 75 := by
      by_cases hb : (forecastTrendVol (CandleFetch.okData c)).1 = Trend.neutral <;> simp [hb]
    simp only [getForecast, List.mem_cons, List.not_mem_nil, or_false] at hfp
    rcases hfp with rfl | rfl | rfl <;> rcases hbase with hb | hb <;>
      constructor <;> simp [hb] <;> linarith

/-- Witness for claim C7 at a concrete input: the all-zero draws are valid
and the 1-month fallback point has confidence 50 within [0, 100]. -/
theorem forecast_confidence_in_range_witness :
    zeroForecastDraws.valid
    ∧ ({ period := .m1, label := "1 Month", prediction := 90, confidence := 50
         trend := .down } : ForecastPoint) ∈ getForecast .threw 100 zeroForecastDraws
    ∧ 0 ≤ (50 : ℚ) ∧ (50 : ℚ) ≤ 100 :=
  ⟨by intro x hx; fin_cases hx <;> norm_num [zeroForecastDraws],
   by norm_num [getForecast, zeroForecastDraws],
   (forecast_confidence_in_range .threw 100 zeroForecastDraws
      (by intro x hx; fin_cases hx <;> norm_num [zeroForecastDraws])
      { period := .m1, label := "1 Month", prediction := 90, confidence := 50, trend := .down }
      (by norm_num [getForecast, zeroForecastDraws])).1,
   (forecast_confidence_in_range .threw 100 zeroForecastDraws
      (by intro x hx; fin_cases hx <;> norm_num [zeroForecastDraws])
      { period := .m1, label := "1 Month", prediction := 90, confidence := 50, trend := .down }
      (by norm_num [getForecast, zeroForecastDraws])).2⟩

/-- Claim C8, counterexample: with a supplied maxPrice of 0 and every
candidate fetching successfully at price 10, all three candidates are
included even though 10 exceeds 0 — JS `!maxPrice` treats the supplied 0
as "no filter", contradicting the claimed if-and-only-if. -/
theorem recommendations_maxPrice_refuted :
    (getRecommendations (some 0) constPriceFetch zeroRecDraws).map
        (fun r => (r.symbol, r.currentPrice))
      = [("NVDA", 10), ("TSLA", 10), ("AAPL", 10)]
    ∧ ¬((10 : ℚ) ≤ 0) := by
  constructor
  · norm_num [getRecommendations, trendingSymbols, recommendationsLoop, constPriceFetch,
      zeroRecDraws, recFilterPasses, buildRecommendation]
  · norm_num

/-- Claim C8, amended: the candidate loop returns exactly the
`filterMap` of the per-candidate step (a failed fetch omits only that
candidate, never failing the whole request); with no maxPrice the price
filter always passes, and with a supplied nonzero maxPrice a fetched
candidate passes the filter if and only if its price does not exceed it
(a supplied maxPrice of 0 is falsy in JS and disables the filter). -/
theorem recommendations_filter_amended :
    (∀ (maxPrice : Option ℚ) (fetch : String → Option (StockData × List Sentiment))
        (draws : String → ℚ × ℚ) (symbols : List String),
        recommendationsLoop maxPrice fetch draws symbols
          = symbols.filterMap (recStep maxPrice fetch draws))
    ∧ (∀ price : ℚ, recFilterPasses none price = true)
    ∧ (∀ m price : ℚ, m ≠ 0 → recFilterPasses (some m) price = decide (price ≤ m)) := by
  refine ⟨?_, fun price => rfl, ?_⟩
  · intro maxPrice fetch draws symbols
    induction symbols with
    | nil => rfl
    | cons s rest ih =>
      simp only [recommendationsLoop, List.filterMap_cons, recStep]
      cases h : fetch s with
      | none => simpa [h] using ih
      | some pr =>
        obtain ⟨sd, news⟩ := pr
        by_cases hf : recFilterPasses maxPrice sd.price = true
        · simp [h, hf, ih]
        · simp [h, hf, ih]
  · intro m price hm
    simp [recFilterPasses, hm]

/-- Witness for the amended claim C8 at a concrete input. -/
theorem recommendations_filter_amended_witness :
    ((1 : ℚ) ≠ 0) ∧ recFilterPasses (some 1) 1 = decide ((1 : ℚ) ≤ 1) :=
  ⟨by norm_num, recommendations_filter_amended.2.2 1 1 (by norm_num)⟩

end PortfolioOracle
